import Mathlib

/-!
# Mulroy Street Capital trading platform — verification of spec claims

Shallow embedding of the parts of the code base the claims concern:

* `packages/core/risk/risk_manager.py` — `RiskManager` (order gating,
  P&L tracking, halts, risk levels).
* `packages/core/market/data_handler.py` — `BarAggregator` (trade → OHLCV
  bar aggregation).
* `apps/engine/main.py` — `TradingEngine._process_strategy_signal`
  (canary sizing).
* `packages/core/controls/production_controller.py` — `ProductionController`
  (system-state transitions, live-trading confirmation code).

Python `Decimal` and `float` values are modelled as exact rationals (`ℚ`);
the arithmetic the claims depend on (+, -, *, comparisons, and division with
exactly representable thresholds) is exact in both worlds.  Python `dict`s
become association lists, mutation becomes explicit state passing, and calls
to `datetime.now()` become explicit `now_*` arguments.
-/

set_option maxRecDepth 100000

namespace MSC

/-- Risk severity levels (`RiskLevel` enum in risk_manager.py). -/
inductive RiskLevel
  | low
  | medium
  | high
  | critical
deriving DecidableEq, Repr

/-- Python truthiness of an `Optional[Decimal]`: `None` and zero are falsy
(used by `if self.limits.weekly_loss_limit and ...` and friends). -/
def optTruthy : Option ℚ → Bool
  | none => false
  | some x => x != 0

/-- Python `a or b` on an optional number: falls through to `b` when `a`
is `None` or zero (`intent.limit_price or 0`, `... or current_price`). -/
def pyOrQ : Option ℚ → ℚ → ℚ
  | none, b => b
  | some x, b => if x == 0 then b else x

/-- Python `str()` of an `Optional[str]` as an f-string renders it:
`None` prints as `"None"`. -/
def pyStrOpt : Option String → String
  | none => "None"
  | some s => s

/-- `RiskLimits` dataclass (risk_manager.py). -/
structure RiskLimits where
  daily_loss_limit : ℚ
  max_position_size : ℚ
  max_portfolio_heat : ℚ
  max_correlation : ℚ
  per_trade_stop_pct : ℚ
  weekly_loss_limit : Option ℚ
  max_position_pct : ℚ
  max_single_order_value : Option ℚ
  max_orders_per_minute : Nat
  max_daily_trades : Nat
  margin_call_threshold : ℚ
deriving DecidableEq, Repr

/-- `OrderIntent` dataclass (packages/core/types/__init__.py). -/
structure OrderIntent where
  symbol : String
  side : String
  order_type : String
  qty : ℚ
  limit_price : Option ℚ
  stop_price : Option ℚ
  tag : String
  strategy_name : String
deriving DecidableEq, Repr

/-- `Position` dataclass (packages/core/types/__init__.py). -/
structure Position where
  symbol : String
  qty : ℚ
  avg_entry_price : ℚ
  current_price : ℚ
  unrealized_pnl : ℚ
  realized_pnl : ℚ
deriving DecidableEq, Repr

/-- The mutable attributes of a `RiskManager` instance (risk_manager.py,
`__init__`), plus its limits. -/
structure RiskManager where
  limits : RiskLimits
  daily_pnl : ℚ
  weekly_pnl : ℚ
  daily_trades : Nat
  orders_this_minute : Nat
  last_order_minute : Nat
  is_halted : Bool
  halt_reason : Option String
  risk_level : RiskLevel
  violations : List String
  position_sectors : List (String × String)
deriving DecidableEq, Repr

/-- A fresh `RiskManager(limits)` as `__init__` builds it (the initial
`last_order_minute` comes from the clock, so it is a parameter). -/
def RiskManager.init (limits : RiskLimits) (now_minute : Nat) : RiskManager :=
  { limits := limits
    daily_pnl := 0
    weekly_pnl := 0
    daily_trades := 0
    orders_this_minute := 0
    last_order_minute := now_minute
    is_halted := false
    halt_reason := none
    risk_level := RiskLevel.low
    violations := []
    position_sectors := [] }

/-- Rejection reasons returned by `check_order_intent`; each constructor
is one of the source's return statements, payloads carrying the values the
f-strings interpolate. -/
inductive Reason
  | tradingHalted (halt_reason : Option String)
  | dailyLossLimit
  | weeklyLossLimit
  | orderValueExceeds (value maxv : ℚ)
  | positionSizeExceeds (value maxv : ℚ)
  | rateLimit (max_orders : Nat)
  | dailyTradeLimit (max_trades : Nat)
  | correlationTooHigh
  | portfolioHeat (heat maxHeat : ℚ)
deriving DecidableEq, Repr

/-- The message text of the halted rejection, `f"Trading halted: {self.halt_reason}"`. -/
def haltedMessage (halt_reason : Option String) : String :=
  "Trading halted: " ++ pyStrOpt halt_reason

/-- `RiskManager._halt_trading` (risk_manager.py): set the halt flag and
reason, force the risk level to critical, and append a violations entry
`f"{datetime.now().isoformat()}: {reason}"`. -/
def RiskManager.halt_trading (s : RiskManager) (reason : String) (now_iso : String) : RiskManager :=
  { s with is_halted := true
           halt_reason := some reason
           risk_level := RiskLevel.critical
           violations := s.violations ++ [now_iso ++ ": " ++ reason] }

/-- `RiskManager.resume_trading`: clear the halt flag and reason. -/
def RiskManager.resume_trading (s : RiskManager) : RiskManager :=
  { s with is_halted := false, halt_reason := none }

/-- `RiskManager.emergency_halt`. -/
def RiskManager.emergency_halt (s : RiskManager) (now_iso : String) : RiskManager :=
  s.halt_trading "Emergency halt activated" now_iso

/-- Association-list lookup standing in for Python `dict[key]` /
`dict.get(key)`. -/
def dictGet (d : List (String × Position)) (k : String) : Option Position :=
  (d.find? (fun p => p.1 == k)).map Prod.snd

/-- Python `key in dict`. -/
def dictContains (d : List (String × Position)) (k : String) : Bool :=
  d.any (fun p => p.1 == k)

/-- `RiskManager._calculate_portfolio_heat`. -/
def RiskManager.calculate_portfolio_heat (s : RiskManager)
    (positions : List (String × Position)) : ℚ :=
  if positions.isEmpty then 0
  else
    let total_risk := positions.foldl
      (fun acc p => acc + |p.2.qty * p.2.current_price| * s.limits.per_trade_stop_pct) 0
    let total_value := positions.foldl
      (fun acc p => acc + |p.2.qty * p.2.current_price|) 0
    if total_value > 0 then total_risk / total_value else 0

/-- `RiskManager._check_correlation`: at most 3 open positions per sector. -/
def RiskManager.check_correlation (s : RiskManager) (intent : OrderIntent)
    (positions : List (String × Position)) : Bool :=
  match (s.position_sectors.find? (fun p => p.1 == intent.symbol)).map Prod.snd with
  | none => true
  | some sector =>
      let sector_exposure := (s.position_sectors.filter
        (fun p => p.2 == sector && dictContains positions p.1)).length
      decide (sector_exposure < 3)

/-- The value Python's `order_value = Decimal(str(intent.qty)) *
Decimal(str(intent.limit_price or 0))` computes. -/
def orderValue (intent : OrderIntent) : ℚ :=
  intent.qty * pyOrQ intent.limit_price 0

/-- The `new_value` of the position-size check: `abs(new_qty *
Decimal(str(intent.limit_price or current_pos.current_price)))` where
`new_qty` adds the intent's quantity for a buy and subtracts it otherwise. -/
def newPositionValue (intent : OrderIntent) (current_pos : Position) : ℚ :=
  |(if intent.side == "buy" then current_pos.qty + intent.qty
    else current_pos.qty - intent.qty) * pyOrQ intent.limit_price current_pos.current_price|

/-- The per-minute rollover at the top of `check_order_intent`'s rate-limit
section: when the wall-clock minute changed, zero `orders_this_minute` and
remember the new minute. -/
def RiskManager.minute_rolled (s : RiskManager) (now_minute : Nat) : RiskManager :=
  if now_minute ≠ s.last_order_minute then
    { s with orders_this_minute := 0, last_order_minute := now_minute }
  else s

/-- The tail of `check_order_intent` after the per-minute rollover: rate
limit, daily trade limit, correlation, portfolio heat, and on success the
two counter increments. -/
def RiskManager.check_order_rate_tail (s1 : RiskManager) (intent : OrderIntent)
    (current_positions : List (String × Position)) : RiskManager × Bool × Option Reason :=
  -- Check rate limits
  if s1.orders_this_minute ≥ s1.limits.max_orders_per_minute then
    (s1, false, some (Reason.rateLimit s1.limits.max_orders_per_minute))
  -- Check daily trade limit
  else if s1.daily_trades ≥ s1.limits.max_daily_trades then
    (s1, false, some (Reason.dailyTradeLimit s1.limits.max_daily_trades))
  -- Check correlation limits
  else if ¬ s1.check_correlation intent current_positions then
    (s1, false, some Reason.correlationTooHigh)
  -- Check portfolio heat
  else if s1.calculate_portfolio_heat current_positions > s1.limits.max_portfolio_heat then
    (s1, false, some (Reason.portfolioHeat (s1.calculate_portfolio_heat current_positions)
                        s1.limits.max_portfolio_heat))
  else
    -- All checks passed
    ({ s1 with orders_this_minute := s1.orders_this_minute + 1
               daily_trades := s1.daily_trades + 1 }, true, none)

/-- `RiskManager.check_order_intent` (risk_manager.py lines 66-125), check
for check in the source's order.  The wall clock is passed explicitly:
`now_minute` is `datetime.now().minute` read in the rate-limit section,
`now_iso` the timestamp `_halt_trading` stamps violations with.  Returns the
post-call state together with `(is_allowed, rejection_reason)`. -/
def RiskManager.check_order_intent (s : RiskManager) (intent : OrderIntent)
    (current_positions : List (String × Position)) (now_minute : Nat) (now_iso : String) :
    RiskManager × Bool × Option Reason :=
  -- Check if halted
  if s.is_halted then
    (s, false, some (Reason.tradingHalted s.halt_reason))
  -- Check daily loss limit
  else if s.daily_pnl ≤ -s.limits.daily_loss_limit then
    (s.halt_trading "Daily loss limit exceeded" now_iso, false, some Reason.dailyLossLimit)
  -- Check weekly loss limit
  else if optTruthy s.limits.weekly_loss_limit &&
          decide (s.weekly_pnl ≤ -(s.limits.weekly_loss_limit.getD 0)) then
    (s.halt_trading "Weekly loss limit exceeded" now_iso, false, some Reason.weeklyLossLimit)
  -- Check order size limits
  else if optTruthy s.limits.max_single_order_value &&
          decide (orderValue intent > s.limits.max_single_order_value.getD 0) then
    (s, false, some (Reason.orderValueExceeds (orderValue intent)
                       (s.limits.max_single_order_value.getD 0)))
  else
    -- Check position size limits
    match dictGet current_positions intent.symbol with
    | some current_pos =>
        if newPositionValue intent current_pos > s.limits.max_position_size then
          (s, false, some (Reason.positionSizeExceeds (newPositionValue intent current_pos)
                             s.limits.max_position_size))
        else
          (s.minute_rolled now_minute).check_order_rate_tail intent current_positions
    | none =>
        (s.minute_rolled now_minute).check_order_rate_tail intent current_positions

/-- `RiskManager._update_risk_level`: bucket `daily_pnl / daily_loss_limit`
(0 when the limit is 0) into the four levels. -/
def RiskManager.update_risk_level (s : RiskManager) : RiskManager :=
  let daily_loss_pct : ℚ :=
    if s.limits.daily_loss_limit ≠ 0 then s.daily_pnl / s.limits.daily_loss_limit else 0
  let lvl :=
    if daily_loss_pct ≤ -(3/4 : ℚ) then RiskLevel.critical
    else if daily_loss_pct ≤ -(1/2 : ℚ) then RiskLevel.high
    else if daily_loss_pct ≤ -(1/4 : ℚ) then RiskLevel.medium
    else RiskLevel.low
  { s with risk_level := lvl }

/-- `RiskManager.update_pnl`: store the new P&L figures, recompute the risk
level, then run the automatic halt checks (the last `elif` forces the level
to HIGH at the margin-call threshold). -/
def RiskManager.update_pnl (s : RiskManager) (daily_pnl : ℚ) (weekly_pnl : Option ℚ)
    (now_iso : String) : RiskManager :=
  let s := { s with daily_pnl := daily_pnl }
  let s := match weekly_pnl with
           | some w => { s with weekly_pnl := w }
           | none => s
  let s := s.update_risk_level
  if daily_pnl ≤ -s.limits.daily_loss_limit then
    s.halt_trading "Daily loss limit exceeded" now_iso
  else if optTruthy weekly_pnl && optTruthy s.limits.weekly_loss_limit &&
          decide (weekly_pnl.getD 0 ≤ -(s.limits.weekly_loss_limit.getD 0)) then
    s.halt_trading "Weekly loss limit exceeded" now_iso
  else if daily_pnl ≤ -s.limits.daily_loss_limit * s.limits.margin_call_threshold then
    { s with risk_level := RiskLevel.high }
  else s

/-- `RiskManager.update_daily_pnl`: store the daily P&L and recompute the
risk level (no halt checks here). -/
def RiskManager.update_daily_pnl (s : RiskManager) (pnl : ℚ) : RiskManager :=
  ({ s with daily_pnl := pnl }).update_risk_level

/-- `RiskManager.reset_daily_pnl`. -/
def RiskManager.reset_daily_pnl (s : RiskManager) : RiskManager :=
  { s with daily_pnl := 0, daily_trades := 0, orders_this_minute := 0 }

/-- Modelled from the spec's words, for comparison with the source
(`_update_risk_level`): the risk bucket as a pure function of the ratio
`daily_pnl / daily_loss_limit` — low above -25%, medium at or below -25%,
high at or below -50%, critical at or below -75%. -/
def specRiskBucket (daily_pnl daily_loss_limit : ℚ) : RiskLevel :=
  let ratio := daily_pnl / daily_loss_limit
  if ratio ≤ -(3/4 : ℚ) then RiskLevel.critical
  else if ratio ≤ -(1/2 : ℚ) then RiskLevel.high
  else if ratio ≤ -(1/4 : ℚ) then RiskLevel.medium
  else RiskLevel.low

/-- One call's worth of arguments to `check_order_intent` (used to talk
about sequences of calls). -/
structure CheckCall where
  intent : OrderIntent
  positions : List (String × Position)
  now_minute : Nat
  now_iso : String
deriving Repr

/-- Run a sequence of `check_order_intent` calls, threading the manager
state and collecting each call's `(is_allowed, reason)` result. -/
def RiskManager.run_checks : RiskManager → List CheckCall → RiskManager × List (Bool × Option Reason)
  | s, [] => (s, [])
  | s, c :: cs =>
      let r := s.check_order_intent c.intent c.positions c.now_minute c.now_iso
      let rest := r.1.run_checks cs
      (rest.1, (r.2.1, r.2.2) :: rest.2)

/-- Concrete limits used by witnesses: the shape the repository's own
tests build (`test_risk_manager.py`), with a $100 daily loss limit. -/
def limitsA : RiskLimits :=
  { daily_loss_limit := 100
    max_position_size := 10000
    max_portfolio_heat := 2/100
    max_correlation := 7/10
    per_trade_stop_pct := 2/100
    weekly_loss_limit := none
    max_position_pct := 1/10
    max_single_order_value := none
    max_orders_per_minute := 10
    max_daily_trades := 100
    margin_call_threshold := 1/4 }

/-- A fresh manager over `limitsA`. -/
def mgrA : RiskManager := RiskManager.init limitsA 0

/-- A manager halted by the kill switch (`emergency_halt`). -/
def mgrHalted : RiskManager := mgrA.emergency_halt "t0"

/-- A market-order intent (no limit price), as the tests build one. -/
def intentA : OrderIntent :=
  { symbol := "AAPL", side := "buy", order_type := "market", qty := 500
    limit_price := none, stop_price := none, tag := "", strategy_name := "test" }

/-- `StrategyMode` enum (apps/engine/main.py). -/
inductive StrategyMode
  | disabled
  | shadow
  | canary
  | enabled
deriving DecidableEq, Repr

/-- `self.strategy_modes.get(strategy_name, StrategyMode.DISABLED)`. -/
def modesGet (d : List (String × StrategyMode)) (k : String) : StrategyMode :=
  ((d.find? (fun p => p.1 == k)).map Prod.snd).getD StrategyMode.disabled

/-- The slice of `TradingEngine` state `_process_strategy_signal` reads. -/
structure EngineCtx where
  trading_enabled : Bool
  max_single_order_value : ℚ
  strategy_modes : List (String × StrategyMode)
  risk : RiskManager
  positions : List (String × Position)
deriving Repr

/-- `TradingEngine._place_live_order`'s additional safety check: the order
is dropped (not placed) when `qty * (limit_price or 999999)` exceeds the
engine config's `max_single_order_value`; otherwise the intent is submitted
to the broker as is.  Returns the submitted order, if any. -/
def place_live_order (cfg_max : ℚ) (intent : OrderIntent) : Option OrderIntent :=
  if intent.qty * pyOrQ intent.limit_price 999999 > cfg_max then none
  else some intent

/-- `TradingEngine._process_strategy_signal` (apps/engine/main.py lines
318-353).  Python mutates the strategy's `OrderIntent` object in place
(`signal.strategy_name = strategy_name` up front and, in canary mode,
`signal.qty = min(signal.qty, 10)`); the first component of the result is
the state of that object after the call.  The second is the order submitted
to the broker, if any; the third the risk manager's post-call state. -/
def process_strategy_signal (ctx : EngineCtx) (signal : OrderIntent)
    (strategy_name : String) (now_minute : Nat) (now_iso : String) :
    OrderIntent × Option OrderIntent × RiskManager :=
  let signal := { signal with strategy_name := strategy_name }
  let mode := modesGet ctx.strategy_modes strategy_name
  -- Check if trading is enabled
  if ¬ ctx.trading_enabled then (signal, none, ctx.risk)
  else
    -- Risk checks
    match ctx.risk.check_order_intent signal ctx.positions now_minute now_iso with
    | (risk', is_allowed, _) =>
      if ¬ is_allowed then (signal, none, risk')
      else
        match mode with
        | StrategyMode.shadow => (signal, none, risk')
        | StrategyMode.canary =>
            -- Canary mode: reduce size, mutating the signal in place
            let signal := { signal with qty := min signal.qty 10 }
            (signal, place_live_order ctx.max_single_order_value signal, risk')
        | StrategyMode.enabled =>
            (signal, place_live_order ctx.max_single_order_value signal, risk')
        | StrategyMode.disabled => (signal, none, risk')

/-- An engine context with permissive limits and one canary strategy, used
by the concrete canary-mode runs. -/
def ctxA : EngineCtx :=
  { trading_enabled := true
    max_single_order_value := 100000000
    strategy_modes := [("test", StrategyMode.canary)]
    risk := mgrA
    positions := [] }

/-- `MarketBar` dataclass (packages/core/types/__init__.py).  The Python
field `open` is a Lean keyword, so it is named `opn` here; `timestamp` is
the bar's bucket start in epoch seconds. -/
structure MarketBar where
  symbol : String
  timestamp : Nat
  opn : ℚ
  high : ℚ
  low : ℚ
  close : ℚ
  volume : ℚ
deriving DecidableEq, Repr

/-- One trade fed to `BarAggregator.add_trade`: its price, its size, and
its timestamp in whole epoch seconds (the source converts the int timestamp
to a tz-aware datetime and back, which is the identity on whole seconds). -/
structure Trade where
  price : ℚ
  size : ℚ
  ts : Nat
deriving DecidableEq, Repr

/-- `BarAggregator._get_bar_time`: `(seconds_since_epoch // timeframe) *
timeframe`, i.e. the start of the bucket containing `ts`. -/
def get_bar_time (timeframe ts : Nat) : Nat :=
  ts / timeframe * timeframe

/-- `BarAggregator` dataclass state (packages/core/market/data_handler.py):
the timeframe in seconds, the completed-bar deque, the bar under
construction, and the bucket start of the last trade seen. -/
structure BarAggregator where
  timeframe : Nat
  bars : List MarketBar
  current_bar : Option MarketBar
  last_bar_time : Option Nat
deriving DecidableEq, Repr

/-- Appending to the `deque(maxlen=1000)` of completed bars: the oldest
bars are dropped past 1000 entries. -/
def pushBar (bars : List MarketBar) (b : MarketBar) : List MarketBar :=
  if (bars ++ [b]).length > 1000 then
    (bars ++ [b]).drop ((bars ++ [b]).length - 1000)
  else bars ++ [b]

/-- A fresh `BarAggregator(timeframe)`. -/
def initAgg (timeframe : Nat) : BarAggregator :=
  { timeframe := timeframe, bars := [], current_bar := none, last_bar_time := none }

/-- `BarAggregator.add_trade` (data_handler.py lines 19-49): when the
incoming trade's bucket differs from `last_bar_time` (and a bar is under
construction), the current bar is completed, appended to the deque and
returned; the trade then opens a new bar or extends the current one
(high/low/close/volume update), and `last_bar_time` becomes the trade's
bucket. -/
def BarAggregator.add_trade (a : BarAggregator) (symbol : String) (price volume : ℚ)
    (timestamp : Nat) : BarAggregator × Option MarketBar :=
  let bar_time := get_bar_time a.timeframe timestamp
  -- If this is a new bar period, complete the current bar
  let completed : Option MarketBar :=
    match a.current_bar, a.last_bar_time with
    | some cb, some lbt => if bar_time ≠ lbt then some cb else none
    | _, _ => none
  let bars1 := match completed with
    | some cb => pushBar a.bars cb
    | none => a.bars
  let cur1 := match completed with
    | some _ => none
    | none => a.current_bar
  -- Initialize or update current bar
  let new_bar := match cur1 with
    | none =>
        { symbol := symbol, timestamp := bar_time, opn := price, high := price,
          low := price, close := price, volume := volume }
    | some cb =>
        { cb with high := max cb.high price, low := min cb.low price,
                  close := price, volume := cb.volume + volume }
  ({ a with bars := bars1, current_bar := some new_bar, last_bar_time := some bar_time },
   completed)

/-- Feed a list of trades for one symbol through `add_trade`, collecting
the completed bars each call returns, in order. -/
def BarAggregator.add_trades (a : BarAggregator) (symbol : String) :
    List Trade → BarAggregator × List MarketBar
  | [] => (a, [])
  | t :: ts =>
      let r := a.add_trade symbol t.price t.size t.ts
      let rest := r.1.add_trades symbol ts
      (rest.1, match r.2 with
               | some cb => cb :: rest.2
               | none => rest.2)

/-- Modelled from the spec's words: the OHLCV summary bar for a nonempty
group of trades — open is the first trade's price, high the maximum price,
low the minimum, close the last trade's price, volume the sum of sizes,
and the timestamp the bucket start of the group's first trade. -/
def specBar (symbol : String) (timeframe : Nat) : List Trade → MarketBar
  | [] => { symbol := symbol, timestamp := 0, opn := 0, high := 0, low := 0, close := 0, volume := 0 }
  | t :: rest =>
      { symbol := symbol
        timestamp := get_bar_time timeframe t.ts
        opn := t.price
        high := rest.foldl (fun a u => max a u.price) t.price
        low := rest.foldl (fun a u => min a u.price) t.price
        close := rest.foldl (fun _ u => u.price) t.price
        volume := rest.foldl (fun a u => a + u.size) t.size }

/-- Group a trade stream into maximal runs of consecutive trades whose
bucket (`get_bar_time`) agrees with the run's first trade: one fold step.
The pair carries the run under construction and the finished runs. -/
def sgroupStep (timeframe : Nat) :
    List Trade × List (List Trade) → Trade → List Trade × List (List Trade)
  | ([], done), t => ([t], done)
  | (c :: cs, done), t =>
      if get_bar_time timeframe t.ts = get_bar_time timeframe c.ts then
        (c :: (cs ++ [t]), done)
      else ([t], done ++ [c :: cs])

/-- Group a trade stream into maximal constant-bucket runs: the run still
open and the finished runs, in order. -/
def sgroups (timeframe : Nat) (L : List Trade) : List Trade × List (List Trade) :=
  L.foldl (sgroupStep timeframe) ([], [])

/-- The aggregator state corresponding to a finished-bar list `bars` and an
open run `cur` of trades: the bar under construction is the OHLCV summary of
`cur`, and `last_bar_time` is `cur`'s bucket. -/
def stateOf (timeframe : Nat) (symbol : String) (bars : List MarketBar) :
    List Trade → BarAggregator
  | [] => { timeframe := timeframe, bars := bars, current_bar := none, last_bar_time := none }
  | c :: cs =>
      { timeframe := timeframe, bars := bars
        current_bar := some (specBar symbol timeframe (c :: cs))
        last_bar_time := some (get_bar_time timeframe c.ts) }

/-- The number of bucket changes along a trade stream, starting from bucket
`b`. -/
def changes (timeframe : Nat) : Nat → List Trade → Nat
  | _, [] => 0
  | b, t :: ts =>
      (if get_bar_time timeframe t.ts = b then 0 else 1) +
        changes timeframe (get_bar_time timeframe t.ts) ts

/-- Concrete trades for the bar-aggregator runs: two trades in bucket 0 and
one in bucket 60 of a 60-second timeframe. -/
def tradesB : List Trade :=
  [{ price := 10, size := 1, ts := 0 }, { price := 20, size := 2, ts := 30 },
   { price := 15, size := 3, ts := 60 }]

/-- All trades of a run share the bucket of the run's first trade. -/
def coherent (tf : Nat) : List Trade → Prop
  | [] => True
  | c :: cs => ∀ u ∈ cs, get_bar_time tf u.ts = get_bar_time tf c.ts

/-!
## SHA-256 (for `ProductionController.enable_live_trading`)

`hashlib.sha256` modelled bit-exactly over byte lists (`Nat` values < 256),
32-bit words as `Nat` with explicit `% 2^32`.  Checked against the FIPS
180-4 test vectors: `sha256("abc") =
ba7816bf8f01cfea414140de5dae2223b00361a396177a9cb410ff61f20015ad` and the
empty-string digest (see the confirmation-code theorems below for concrete
evaluations through this code path).
-/

/-- Rotate a 32-bit word right by `n` positions. -/
def rotr (n x : Nat) : Nat := ((x >>> n) ||| (x <<< (32 - n))) % 2^32

/-- SHA-256 `Ch(x,y,z)`; `¬x` is taken within 32 bits. -/
def shaCh (x y z : Nat) : Nat := (x &&& y) ^^^ ((x ^^^ 0xffffffff) &&& z)

/-- SHA-256 `Maj(x,y,z)`. -/
def shaMaj (x y z : Nat) : Nat := (x &&& y) ^^^ (x &&& z) ^^^ (y &&& z)

/-- SHA-256 `Σ0`. -/
def bigSigma0 (x : Nat) : Nat := rotr 2 x ^^^ rotr 13 x ^^^ rotr 22 x

/-- SHA-256 `Σ1`. -/
def bigSigma1 (x : Nat) : Nat := rotr 6 x ^^^ rotr 11 x ^^^ rotr 25 x

/-- SHA-256 `σ0`. -/
def smallSigma0 (x : Nat) : Nat := rotr 7 x ^^^ rotr 18 x ^^^ (x >>> 3)

/-- SHA-256 `σ1`. -/
def smallSigma1 (x : Nat) : Nat := rotr 17 x ^^^ rotr 19 x ^^^ (x >>> 10)

/-- The `k` most significant bytes of a value, big endian. -/
def beBytes : Nat → Nat → List Nat
  | 0, _ => []
  | k+1, v => ((v >>> (8*k)) % 256) :: beBytes k v

/-- SHA-256 padding: `0x80`, zeros to 56 mod 64, then the bit length. -/
def padMessage (msg : List Nat) : List Nat :=
  msg ++ [0x80] ++ List.replicate ((119 - msg.length % 64) % 64) 0 ++ beBytes 8 (msg.length * 8)

/-- Big-endian 4-byte groups as 32-bit words. -/
def toWords : List Nat → List Nat
  | b0 :: b1 :: b2 :: b3 :: rest => (((b0*256+b1)*256+b2)*256+b3) :: toWords rest
  | _ => []

/-- The 64 round constants of SHA-256 (FIPS 180-4 section 4.2.2), packed
big-endian into one 2048-bit literal and unpacked by the byte/word helpers
(checked below through the standard test vectors). -/
def shaK : List Nat :=
  toWords (beBytes 256 0x428a2f9871374491b5c0fbcfe9b5dba53956c25b59f111f1923f82a4ab1c5ed5d807aa9812835b01243185be550c7dc372be5d7480deb1fe9bdc06a7c19bf174e49b69c1efbe47860fc19dc6240ca1cc2de92c6f4a7484aa5cb0a9dc76f988da983e5152a831c66db00327c8bf597fc7c6e00bf3d5a7914706ca63511429296727b70a852e1b21384d2c6dfc53380d13650a7354766a0abb81c2c92e92722c85a2bfe8a1a81a664bc24b8b70c76c51a3d192e819d6990624f40e3585106aa07019a4c1161e376c082748774c34b0bcb5391c0cb34ed8aa4a5b9cca4f682e6ff3748f82ee78a5636f84c878148cc7020890befffaa4506cebbef9a3f7c67178f2)

/-- The initial hash value of SHA-256 (FIPS 180-4 section 5.3.3), packed
big-endian into one 256-bit literal. -/
def shaH0 : List Nat :=
  toWords (beBytes 32 0x6a09e667bb67ae853c6ef372a54ff53a510e527f9b05688c1f83d9ab5be0cd19)

/-- Extend the 16 block words to the 64-entry message schedule. -/
def buildW (w16 : List Nat) : List Nat :=
  (List.range 48).foldl
    (fun w _ =>
      let n := w.length
      w ++ [(smallSigma1 (w.getD (n-2) 0) + w.getD (n-7) 0 +
             smallSigma0 (w.getD (n-15) 0) + w.getD (n-16) 0) % 2^32])
    w16

/-- One SHA-256 compression round on the eight working registers. -/
def shaRound (st : List Nat) (wk : Nat × Nat) : List Nat :=
  match st with
  | [a, b, c, d, e, f, g, h] =>
      let t1 := (h + bigSigma1 e + shaCh e f g + wk.2 + wk.1) % 2^32
      let t2 := (bigSigma0 a + shaMaj a b c) % 2^32
      [(t1 + t2) % 2^32, a, b, c, (d + t1) % 2^32, e, f, g]
  | other => other

/-- Compress one 64-byte block into the running hash. -/
def processBlock (h : List Nat) (block : List Nat) : List Nat :=
  let w := buildW (toWords block)
  let st := (w.zip shaK).foldl shaRound h
  (h.zip st).map (fun p => (p.1 + p.2) % 2^32)

/-- Split into 64-byte chunks (fueled so the kernel can evaluate it). -/
def chunksGo : Nat → List Nat → List (List Nat)
  | 0, _ => []
  | _, [] => []
  | fuel+1, l => l.take 64 :: chunksGo fuel (l.drop 64)

/-- Split a byte list into 64-byte chunks. -/
def chunks64 (l : List Nat) : List (List Nat) := chunksGo l.length l

/-- The eight 32-bit words of the SHA-256 digest of a byte string. -/
def sha256words (msg : List Nat) : List Nat :=
  (chunks64 (padMessage msg)).foldl processBlock shaH0

/-- A nibble as a lower-case hex character. -/
def hexDigit (n : Nat) : Char :=
  "0123456789abcdef".data.getD n '0'

/-- A 32-bit word as eight lower-case hex characters. -/
def wordHex (w : Nat) : List Char :=
  (List.range 8).map (fun i => hexDigit ((w >>> (4*(7-i))) % 16))

/-- `hashlib.sha256(...).hexdigest()`: 64 lower-case hex characters. -/
def hexdigest (msg : List Nat) : String :=
  String.mk (((sha256words msg).map wordHex).flatten)

/-- `str.encode()` for the ASCII strings involved here. -/
def strBytes (s : String) : List Nat := s.data.map (fun c => c.toNat)

/-- The expected confirmation code of `enable_live_trading`
(production_controller.py lines 307-309):
`sha256(f"{date}:ENABLE_LIVE_TRADING".encode()).hexdigest()[:8]`. -/
def expected_confirmation (date_iso : String) : String :=
  (hexdigest (strBytes (date_iso ++ ":ENABLE_LIVE_TRADING"))).take 8

/-- `SystemState` enum (packages/core/controls/production_controller.py). -/
inductive SystemState
  | initializing
  | testing
  | shadow
  | canary
  | ramping
  | live
  | paused
  | emergency_stop
deriving DecidableEq, Repr

/-- The spec's forward phase order `initializing → testing/shadow → canary →
ramping → live`; `paused` and `emergency_stop` sit outside it. -/
def phaseIdx : SystemState → Option Nat
  | SystemState.initializing => some 0
  | SystemState.testing => some 1
  | SystemState.shadow => some 2
  | SystemState.canary => some 3
  | SystemState.ramping => some 4
  | SystemState.live => some 5
  | SystemState.paused => none
  | SystemState.emergency_stop => none

/-- The external data the controller's guards read from Redis: whether the
pre-flight checklist passes, the shadow statistics' `duration_hours` (when
present), the canary statistics' `success_rate` (when present), and whether
`ramp:statistics` exists.  None of the guards read the controller's own
`state`. -/
structure ControllerEnv where
  preflight_ok : Bool
  shadow_stats : Option ℚ
  canary_stats : Option ℚ
  ramp_stats : Bool
deriving DecidableEq, Repr

/-- The `ProductionController` attributes the claims concern. -/
structure ProductionController where
  state : SystemState
  audit_log : List String
deriving DecidableEq, Repr

/-- A freshly constructed controller. -/
def ProductionController.init : ProductionController :=
  { state := SystemState.initializing, audit_log := [] }

/-- `ProductionController.start_shadow_mode`: requires only that the
pre-flight check passes; on success sets `state = SHADOW`. -/
def ProductionController.start_shadow_mode (env : ControllerEnv)
    (c : ProductionController) : ProductionController × Bool :=
  if env.preflight_ok then ({ c with state := SystemState.shadow }, true)
  else (c, false)

/-- `ProductionController.start_canary_mode`: requires shadow statistics
with at least 24 `duration_hours`; on success sets `state = CANARY`. -/
def ProductionController.start_canary_mode (env : ControllerEnv)
    (c : ProductionController) : ProductionController × Bool :=
  match env.shadow_stats with
  | none => (c, false)
  | some dur =>
      if dur < 24 then (c, false)
      else ({ c with state := SystemState.canary }, true)

/-- `ProductionController.gradual_ramp_up`: requires canary statistics with
`success_rate` at least 0.8; on success sets `state = RAMPING`. -/
def ProductionController.gradual_ramp_up (env : ControllerEnv)
    (c : ProductionController) : ProductionController × Bool :=
  match env.canary_stats with
  | none => (c, false)
  | some rate =>
      if rate < 4/5 then (c, false)
      else ({ c with state := SystemState.ramping }, true)

/-- `ProductionController.enable_live_trading` (lines 301-335): rejects
unless the supplied code equals `expected_confirmation` of the current date;
then the pre-flight check must pass and `ramp:statistics` must exist; on
success sets `state = LIVE` and appends to the audit log.  On any failure
the controller is returned unchanged. -/
def ProductionController.enable_live_trading (env : ControllerEnv)
    (c : ProductionController) (final_confirmation : String) (today_iso : String) :
    ProductionController × Bool :=
  if final_confirmation ≠ expected_confirmation today_iso then (c, false)
  else if ¬ env.preflight_ok then (c, false)
  else if ¬ env.ramp_stats then (c, false)
  else ({ c with state := SystemState.live
                 audit_log := c.audit_log ++ ["LIVE_TRADING_ENABLED"] }, true)

/-- `ProductionController.emergency_stop`: unconditionally sets
`state = EMERGENCY_STOP` and logs. -/
def ProductionController.emergency_stop (c : ProductionController) :
    ProductionController × Bool :=
  ({ c with state := SystemState.emergency_stop
            audit_log := c.audit_log ++ ["EMERGENCY_STOP"] }, true)

/-- `ProductionController.pause_trading`: unconditionally sets
`state = PAUSED`. -/
def ProductionController.pause_trading (c : ProductionController) :
    ProductionController × Bool :=
  ({ c with state := SystemState.paused }, true)

/-- `ProductionController._auto_resume` after the pause delay: if still
paused, set `state = LIVE` (whatever the state before pausing was). -/
def ProductionController.auto_resume (c : ProductionController) : ProductionController :=
  if c.state = SystemState.paused then { c with state := SystemState.live } else c

/-- One controller operation of the claim's list.  `pre_flight_check` never
writes `state`, so it is the identity here. -/
inductive ControllerOp
  | preFlight
  | startShadow
  | startCanary
  | rampUp
  | enableLive (code date : String)
  | emergencyStop
  | pauseTrading
  | autoResume
deriving Repr

/-- Apply one operation to the controller under a fixed environment. -/
def stepOp (env : ControllerEnv) (c : ProductionController) :
    ControllerOp → ProductionController
  | ControllerOp.preFlight => c
  | ControllerOp.startShadow => (c.start_shadow_mode env).1
  | ControllerOp.startCanary => (c.start_canary_mode env).1
  | ControllerOp.rampUp => (c.gradual_ramp_up env).1
  | ControllerOp.enableLive code date => (c.enable_live_trading env code date).1
  | ControllerOp.emergencyStop => c.emergency_stop.1
  | ControllerOp.pauseTrading => c.pause_trading.1
  | ControllerOp.autoResume => c.auto_resume

/-- Run a sequence of controller operations. -/
def runOps (env : ControllerEnv) : ProductionController → List ControllerOp → ProductionController
  | c, [] => c
  | c, op :: ops => runOps env (stepOp env c op) ops

/-- An environment in which every guard passes. -/
def envB : ControllerEnv :=
  { preflight_ok := true, shadow_stats := some 48, canary_stats := some (9/10),
    ramp_stats := true }

/-- The intended forward rollout on a fixed date, using the correct
confirmation code for that date. -/
def opsPre : List ControllerOp :=
  [ControllerOp.startShadow, ControllerOp.startCanary, ControllerOp.rampUp,
   ControllerOp.enableLive (expected_confirmation "2026-10-12") "2026-10-12"]

end MSC

namespace MSC

/-- C1: while `is_halted` is true, every `check_order_intent` call — on any
intent, positions, and clock — returns rejected with the stored halt reason
(formatted `"Trading halted: {halt_reason}"`) and leaves the state untouched,
so every subsequent call in any sequence is rejected the same way; and
`resume_trading` sets `is_halted` back to false and clears the halt reason. -/
theorem halted_rejects_every_intent_until_resume (s : RiskManager) (h : s.is_halted = true) :
    (∀ intent pos m t, s.check_order_intent intent pos m t
        = (s, false, some (Reason.tradingHalted s.halt_reason))) ∧
    (∀ calls, s.run_checks calls
        = (s, calls.map (fun _ => (false, some (Reason.tradingHalted s.halt_reason))))) ∧
    s.resume_trading.is_halted = false ∧ s.resume_trading.halt_reason = none := by
  have step : ∀ intent pos m t, s.check_order_intent intent pos m t
      = (s, false, some (Reason.tradingHalted s.halt_reason)) := by
    intro intent pos m t
    unfold RiskManager.check_order_intent
    simp [h]
  refine ⟨step, ?_, by simp [RiskManager.resume_trading], by simp [RiskManager.resume_trading]⟩
  intro calls
  induction calls with
  | nil => simp [RiskManager.run_checks]
  | cons c cs ih => simp [RiskManager.run_checks, step, ih]

/-- C1 witness: a concretely halted manager rejects a concrete intent with
the stored reason, and resuming clears the halt. -/
theorem halted_rejects_every_intent_until_resume_witness :
    mgrHalted.is_halted = true ∧
    mgrHalted.check_order_intent intentA [] 0 "t1"
      = (mgrHalted, false, some (Reason.tradingHalted (some "Emergency halt activated"))) ∧
    mgrHalted.resume_trading.is_halted = false :=
  have h := halted_rejects_every_intent_until_resume mgrHalted rfl
  ⟨rfl, h.1 intentA [] 0 "t1", h.2.2.1⟩

/-- `_update_risk_level` rewritten as the spec's pure bucket function of
`daily_pnl / daily_loss_limit` (LOW when the limit is 0). -/
theorem update_risk_level_eq (s : RiskManager) :
    s.update_risk_level
      = { s with risk_level :=
            if s.limits.daily_loss_limit ≠ 0 then
              specRiskBucket s.daily_pnl s.limits.daily_loss_limit
            else RiskLevel.low } := by
  unfold RiskManager.update_risk_level specRiskBucket
  by_cases h0 : s.limits.daily_loss_limit = 0
  · simp [h0]; norm_num
  · simp [h0]

/-- C2 counterexample: with a $100 daily loss limit, `update_pnl(-80)` leaves
`risk_level = HIGH` without halting, while the bucket of the ratio
−80/100 = −0.8 is CRITICAL: the margin-call `elif` in `update_pnl` overrides
the bucket. -/
theorem update_pnl_level_not_bucket_counterexample :
    (mgrA.update_pnl (-80) none "t1").risk_level = RiskLevel.high ∧
    specRiskBucket (-80) limitsA.daily_loss_limit = RiskLevel.critical ∧
    (mgrA.update_pnl (-80) none "t1").is_halted = false ∧
    RiskLevel.high ≠ RiskLevel.critical := by
  refine ⟨?_, ?_, ?_, by simp⟩ <;>
    norm_num [mgrA, limitsA, RiskManager.init, RiskManager.update_pnl,
      RiskManager.update_risk_level, RiskManager.halt_trading, optTruthy, specRiskBucket]

/-- C2 amended: `update_daily_pnl` always sets `risk_level` to exactly the
bucket of `daily_pnl / daily_loss_limit` (LOW when the limit is 0); but
`update_pnl` sets the bucket only when no override fires: an automatic halt
forces CRITICAL, and otherwise `daily_pnl ≤ -daily_loss_limit *
margin_call_threshold` forces HIGH — which can downgrade a CRITICAL bucket
to HIGH, as the counterexample shows. -/
theorem update_pnl_risk_level_characterization (s : RiskManager) (d : ℚ) (w : Option ℚ)
    (t : String) :
    (s.update_daily_pnl d).risk_level
      = (if s.limits.daily_loss_limit ≠ 0 then specRiskBucket d s.limits.daily_loss_limit
         else RiskLevel.low) ∧
    (s.update_pnl d w t).risk_level
      = (if d ≤ -s.limits.daily_loss_limit then RiskLevel.critical
         else if optTruthy w && optTruthy s.limits.weekly_loss_limit &&
                 decide (w.getD 0 ≤ -(s.limits.weekly_loss_limit.getD 0)) then RiskLevel.critical
         else if d ≤ -s.limits.daily_loss_limit * s.limits.margin_call_threshold then
           RiskLevel.high
         else if s.limits.daily_loss_limit ≠ 0 then specRiskBucket d s.limits.daily_loss_limit
         else RiskLevel.low) := by
  constructor
  · simp only [RiskManager.update_daily_pnl, update_risk_level_eq]
  · cases w with
    | none =>
        simp only [RiskManager.update_pnl, update_risk_level_eq,
          RiskManager.halt_trading, optTruthy, apply_ite RiskManager.risk_level]
    | some wv =>
        simp only [RiskManager.update_pnl, update_risk_level_eq,
          RiskManager.halt_trading, optTruthy, apply_ite RiskManager.risk_level]

/-- C8: the code at the failing input — with a $100 daily loss limit, two
`update_pnl(-100)` calls on an already-breaching, already-halted manager
append a halt-reason violations entry each: after the second call the log
holds two entries, where the claim (and the spec's idempotence demand)
allows exactly one. -/
theorem update_pnl_repeated_breach_duplicates_violations :
    (mgrA.update_pnl (-100) none "t1").is_halted = true ∧
    (mgrA.update_pnl (-100) none "t1").violations
      = ["t1: Daily loss limit exceeded"] ∧
    ((mgrA.update_pnl (-100) none "t1").update_pnl (-100) none "t2").violations
      = ["t1: Daily loss limit exceeded", "t2: Daily loss limit exceeded"] := by
  refine ⟨?_, ?_, ?_⟩ <;>
    norm_num [mgrA, limitsA, RiskManager.init, RiskManager.update_pnl,
      RiskManager.update_risk_level, RiskManager.halt_trading, optTruthy]
  · rfl
  · constructor <;> rfl

/-- The per-minute rollover never touches the daily trade counter. -/
theorem minute_rolled_daily_trades (s : RiskManager) (m : Nat) :
    (s.minute_rolled m).daily_trades = s.daily_trades := by
  unfold RiskManager.minute_rolled; split <;> rfl

/-- The per-minute rollover can only keep or zero the per-minute counter. -/
theorem minute_rolled_orders_le (s : RiskManager) (m : Nat) :
    (s.minute_rolled m).orders_this_minute ≤ s.orders_this_minute := by
  unfold RiskManager.minute_rolled; split <;> simp

/-- The tail checks leave the state untouched on rejection and increment
exactly the two counters on approval. -/
theorem rate_tail_counters (s1 : RiskManager) (intent : OrderIntent)
    (pos : List (String × Position)) :
    ((s1.check_order_rate_tail intent pos).2.1 = false →
       (s1.check_order_rate_tail intent pos).1 = s1) ∧
    ((s1.check_order_rate_tail intent pos).2.1 = true →
       (s1.check_order_rate_tail intent pos).1.daily_trades = s1.daily_trades + 1 ∧
       (s1.check_order_rate_tail intent pos).1.orders_this_minute
         = s1.orders_this_minute + 1) := by
  unfold RiskManager.check_order_rate_tail
  repeat' split
  all_goals simp_all

/-- C3: a `check_order_intent` call that rejects leaves `daily_trades`
unchanged and `orders_this_minute` no greater than before (the only decrease
being the minute rollover to 0); only an approving call increments both
counters — `daily_trades` by one, and `orders_this_minute` to one more than
its post-rollover value. -/
theorem check_order_intent_counters (s : RiskManager) (intent : OrderIntent)
    (pos : List (String × Position)) (m : Nat) (t : String) :
    ((s.check_order_intent intent pos m t).2.1 = false →
       (s.check_order_intent intent pos m t).1.daily_trades = s.daily_trades ∧
       (s.check_order_intent intent pos m t).1.orders_this_minute ≤ s.orders_this_minute) ∧
    ((s.check_order_intent intent pos m t).2.1 = true →
       (s.check_order_intent intent pos m t).1.daily_trades = s.daily_trades + 1 ∧
       (s.check_order_intent intent pos m t).1.orders_this_minute
         = (s.minute_rolled m).orders_this_minute + 1) := by
  unfold RiskManager.check_order_intent
  repeat' split
  all_goals
    first
      | (refine ⟨fun hf => ?_, fun ht => ?_⟩
         · rw [(rate_tail_counters _ intent pos).1 hf]
           exact ⟨minute_rolled_daily_trades s m, minute_rolled_orders_le s m⟩
         · have h2 := (rate_tail_counters _ intent pos).2 ht
           exact ⟨by rw [h2.1, minute_rolled_daily_trades], h2.2⟩)
      | simp_all [RiskManager.halt_trading]

/-- C3 witness: a concrete approved call increments the daily counter from
0 to 1. -/
theorem check_order_intent_counters_witness :
    (mgrA.check_order_intent intentA [] 0 "t").2.1 = true ∧
    (mgrA.check_order_intent intentA [] 0 "t").1.daily_trades = 1 := by
  have htrue : (mgrA.check_order_intent intentA [] 0 "t").2.1 = true := by
    norm_num [mgrA, limitsA, intentA, RiskManager.init, RiskManager.check_order_intent,
      RiskManager.check_order_rate_tail, RiskManager.minute_rolled, RiskManager.check_correlation,
      RiskManager.calculate_portfolio_heat, dictGet, dictContains, orderValue, pyOrQ, optTruthy]
  have h := (check_order_intent_counters mgrA intentA [] 0 "t").2 htrue
  exact ⟨htrue, by rw [h.1]; rfl⟩

/-- The checks from the rate limit on never reject for the order-value
reason (that rejection is issued earlier, before the rollover). -/
theorem rate_tail_no_order_value_reason (s1 : RiskManager) (intent : OrderIntent)
    (pos : List (String × Position)) (v mv : ℚ) :
    (s1.check_order_rate_tail intent pos).2.2 ≠ some (Reason.orderValueExceeds v mv) := by
  unfold RiskManager.check_order_rate_tail
  repeat' split
  all_goals simp

/-- C9: for an intent with no limit price (a market order) the computed
order value is `qty * 0 = 0`, so — whenever the configured
`max_single_order_value` is nonnegative — `check_order_intent` never rejects
it for the single-order-value reason, however large the quantity. -/
theorem market_orders_skip_value_check (s : RiskManager) (intent : OrderIntent)
    (hmk : intent.limit_price = none)
    (hmax : ∀ x, s.limits.max_single_order_value = some x → 0 ≤ x) :
    orderValue intent = 0 ∧
    ∀ pos m t v mv,
      (s.check_order_intent intent pos m t).2.2 ≠ some (Reason.orderValueExceeds v mv) := by
  have hov : orderValue intent = 0 := by
    unfold orderValue
    rw [hmk]
    simp [pyOrQ]
  refine ⟨hov, ?_⟩
  intro pos m t v mv
  have hcond : (optTruthy s.limits.max_single_order_value &&
      decide (orderValue intent > s.limits.max_single_order_value.getD 0)) = false := by
    cases hx : s.limits.max_single_order_value with
    | none => simp [optTruthy]
    | some x =>
        have hx0 := hmax x hx
        simp [optTruthy, hov]
        intro _
        linarith
  unfold RiskManager.check_order_intent
  rw [hcond]
  repeat' split
  all_goals first
    | exact rate_tail_no_order_value_reason _ intent pos v mv
    | simp_all

/-- C9 witness: the concrete market order of quantity 500 has order value 0
and is not value-rejected. -/
theorem market_orders_skip_value_check_witness :
    orderValue intentA = 0 ∧
    (mgrA.check_order_intent intentA [] 0 "t").2.2 ≠ some (Reason.orderValueExceeds 0 0) := by
  have h := market_orders_skip_value_check mgrA intentA rfl
    (by intro x hx; simp [mgrA, limitsA, RiskManager.init] at hx)
  exact ⟨h.1, h.2 [] 0 "t" 0 0⟩

/-- C10: `resume_trading` rewrites only `is_halted` and `halt_reason`; in
particular the risk level a halt forced to critical stays critical after a
resume, and the P&L accumulators, counters, and violations are untouched. -/
theorem resume_trading_frame (s : RiskManager) (reason t : String) :
    s.resume_trading = { s with is_halted := false, halt_reason := none } ∧
    ((s.halt_trading reason t).resume_trading).risk_level = RiskLevel.critical ∧
    s.resume_trading.risk_level = s.risk_level ∧
    s.resume_trading.daily_pnl = s.daily_pnl ∧
    s.resume_trading.weekly_pnl = s.weekly_pnl ∧
    s.resume_trading.daily_trades = s.daily_trades ∧
    s.resume_trading.orders_this_minute = s.orders_this_minute ∧
    s.resume_trading.violations = s.violations := by
  simp [RiskManager.resume_trading, RiskManager.halt_trading]

/-- C5 counterexample: routing a risk-approved `qty=500` intent through
canary mode places an order with `qty=10` — but the strategy's `OrderIntent`
object itself ends the call with `qty = 10` (and `strategy_name`
overwritten): the cap is an in-place assignment `signal.qty = min(...)`, not
a copy, so the claim's "never mutated after creation" fails. -/
theorem canary_caps_and_mutates :
    (process_strategy_signal ctxA intentA "test" 0 "t").2.1
      = some { intentA with strategy_name := "test", qty := 10 } ∧
    (process_strategy_signal ctxA intentA "test" 0 "t").1.qty = 10 ∧
    intentA.qty = 500 := by
  refine ⟨?_, ?_, rfl⟩ <;>
    norm_num [process_strategy_signal, ctxA, mgrA, limitsA, intentA, modesGet,
      RiskManager.init, RiskManager.check_order_intent, RiskManager.check_order_rate_tail,
      RiskManager.minute_rolled, RiskManager.check_correlation,
      RiskManager.calculate_portfolio_heat, dictGet, dictContains, orderValue, pyOrQ,
      optTruthy, place_live_order]

/-- C5 amended: whenever a strategy in canary mode gets an order placed, the
placed order's quantity is `min(requested, 10)` — never the original
oversize quantity — and that order *is* the strategy's intent object after
the call, mutated in place to carry the capped quantity and the strategy
name (rather than a fresh capped copy). -/
theorem canary_caps_qty (ctx : EngineCtx) (signal : OrderIntent) (name : String)
    (m : Nat) (t : String)
    (hmode : modesGet ctx.strategy_modes name = StrategyMode.canary) :
    ∀ o, (process_strategy_signal ctx signal name m t).2.1 = some o →
      o.qty = min signal.qty 10 ∧
      (process_strategy_signal ctx signal name m t).1 = o ∧
      o = { signal with strategy_name := name, qty := min signal.qty 10 } := by
  intro o ho
  unfold process_strategy_signal at ho ⊢
  rw [hmode] at ho ⊢
  simp only [apply_ite Prod.snd, apply_ite Prod.fst] at ho ⊢
  repeat' split at ho
  all_goals simp_all [place_live_order]
  all_goals rw [← ho.2]

/-- C5 witness: the concrete canary run's mutated intent carries quantity
`min(500, 10)`. -/
theorem canary_caps_qty_witness :
    ((process_strategy_signal ctxA intentA "test" 0 "t").1).qty = min intentA.qty 10 := by
  have hplaced : (process_strategy_signal ctxA intentA "test" 0 "t").2.1
      = some { intentA with strategy_name := "test", qty := 10 } := by
    norm_num [process_strategy_signal, ctxA, mgrA, limitsA, intentA, modesGet,
      RiskManager.init, RiskManager.check_order_intent, RiskManager.check_order_rate_tail,
      RiskManager.minute_rolled, RiskManager.check_correlation,
      RiskManager.calculate_portfolio_heat, dictGet, dictContains, orderValue, pyOrQ,
      optTruthy, place_live_order]
  have h := canary_caps_qty ctxA intentA "test" 0 "t" rfl _ hplaced
  rw [h.2.1]
  exact h.1

/-- Extending a run by one trade updates its OHLCV summary exactly the way
`add_trade`'s else-branch updates the current bar. -/
theorem specBar_append (sym : String) (tf : Nat) (c : Trade) (cs : List Trade) (u : Trade) :
    specBar sym tf (c :: (cs ++ [u]))
      = { specBar sym tf (c :: cs) with
          high := max (specBar sym tf (c :: cs)).high u.price
          low := min (specBar sym tf (c :: cs)).low u.price
          close := u.price
          volume := (specBar sym tf (c :: cs)).volume + u.size } := by
  simp [specBar, List.foldl_append]

/-- The grouping fold is oblivious to finished runs already accumulated:
they are just prepended to whatever the fold produces from scratch. -/
theorem sgroups_done_append (tf : Nat) :
    ∀ (L : List Trade) (cur : List Trade) (done : List (List Trade)),
      L.foldl (sgroupStep tf) (cur, done)
        = ((L.foldl (sgroupStep tf) (cur, [])).1,
           done ++ (L.foldl (sgroupStep tf) (cur, [])).2) := by
  intro L
  induction L with
  | nil => intro cur done; simp
  | cons t ts ih =>
      intro cur done
      cases cur with
      | nil =>
          simp only [List.foldl_cons, sgroupStep]
          exact ih [t] done
      | cons c cs =>
          simp only [List.foldl_cons, sgroupStep]
          split
          · exact ih (c :: (cs ++ [t])) done
          · simp only [List.nil_append]
            rw [ih [t] (done ++ [c :: cs]), ih [t] [c :: cs]]
            simp

/-- Main aggregator invariant: feeding trades into the state of an open run
lands in the state of the fold-grouped stream, emitting exactly the OHLCV
summaries of the runs that closed, in order. -/
theorem add_trades_stateOf (tf : Nat) (sym : String) :
    ∀ (L cur : List Trade) (bars : List MarketBar),
      (stateOf tf sym bars cur).add_trades sym L
        = (stateOf tf sym
             (((L.foldl (sgroupStep tf) (cur, [])).2.map (specBar sym tf)).foldl pushBar bars)
             ((L.foldl (sgroupStep tf) (cur, [])).1),
           ((L.foldl (sgroupStep tf) (cur, [])).2).map (specBar sym tf)) := by
  intro L
  induction L with
  | nil => intro cur bars; simp [BarAggregator.add_trades]
  | cons t ts ih =>
      intro cur bars
      cases cur with
      | nil =>
          have hstep : (stateOf tf sym bars []).add_trade sym t.price t.size t.ts
              = (stateOf tf sym bars [t], none) := by
            simp [stateOf, BarAggregator.add_trade, specBar]
          simp only [BarAggregator.add_trades, hstep]
          rw [ih [t] bars]
          simp [sgroupStep]
      | cons c cs =>
          by_cases hb : get_bar_time tf t.ts = get_bar_time tf c.ts
          · have hstep : (stateOf tf sym bars (c :: cs)).add_trade sym t.price t.size t.ts
                = (stateOf tf sym bars (c :: (cs ++ [t])), none) := by
              simp [stateOf, BarAggregator.add_trade, hb, specBar_append]
            simp only [BarAggregator.add_trades, hstep]
            rw [ih (c :: (cs ++ [t])) bars]
            simp [sgroupStep, hb]
          · have hstep : (stateOf tf sym bars (c :: cs)).add_trade sym t.price t.size t.ts
                = (stateOf tf sym (pushBar bars (specBar sym tf (c :: cs))) [t],
                   some (specBar sym tf (c :: cs))) := by
              simp [stateOf, BarAggregator.add_trade, hb, specBar]
            simp only [BarAggregator.add_trades, hstep]
            rw [ih [t] (pushBar bars (specBar sym tf (c :: cs)))]
            have hfold : List.foldl (sgroupStep tf) (c :: cs, ([] : List (List Trade))) (t :: ts)
                = ((List.foldl (sgroupStep tf) ([t], []) ts).1,
                   [c :: cs] ++ (List.foldl (sgroupStep tf) ([t], []) ts).2) := by
              simp only [List.foldl_cons, sgroupStep, if_neg hb]
              exact sgroups_done_append tf ts [t] [c :: cs]
            rw [hfold]
            simp

/-- The grouped runs concatenate back to the original trade stream. -/
theorem sgroups_partition (tf : Nat) :
    ∀ (L cur : List Trade) (done : List (List Trade)),
      ((L.foldl (sgroupStep tf) (cur, done)).2).flatten ++ (L.foldl (sgroupStep tf) (cur, done)).1
        = done.flatten ++ cur ++ L := by
  intro L
  induction L with
  | nil => intro cur done; simp
  | cons t ts ih =>
      intro cur done
      cases cur with
      | nil =>
          simp only [List.foldl_cons, sgroupStep]
          rw [ih [t] done]
          simp
      | cons c cs =>
          simp only [List.foldl_cons, sgroupStep]
          split
          · rw [ih (c :: (cs ++ [t])) done]
            simp
          · rw [ih [t] (done ++ [c :: cs])]
            simp

/-- Every run the grouping fold produces is bucket-coherent. -/
theorem sgroups_coherent (tf : Nat) :
    ∀ (L cur : List Trade) (done : List (List Trade)),
      coherent tf cur → (∀ g ∈ done, coherent tf g) →
      coherent tf (L.foldl (sgroupStep tf) (cur, done)).1 ∧
      ∀ g ∈ (L.foldl (sgroupStep tf) (cur, done)).2, coherent tf g := by
  intro L
  induction L with
  | nil => intro cur done h1 h2; exact ⟨h1, h2⟩
  | cons t ts ih =>
      intro cur done h1 h2
      cases cur with
      | nil =>
          simp only [List.foldl_cons, sgroupStep]
          exact ih [t] done (by simp [coherent]) h2
      | cons c cs =>
          simp only [List.foldl_cons, sgroupStep]
          split
          · refine ih (c :: (cs ++ [t])) done ?_ h2
            intro u hu
            rcases List.mem_append.1 hu with hu | hu
            · exact h1 u hu
            · simp at hu
              subst hu
              assumption
          · refine ih [t] (done ++ [c :: cs]) (by simp [coherent]) ?_
            intro g hg
            rcases List.mem_append.1 hg with hg | hg
            · exact h2 g hg
            · simp at hg
              subst hg
              exact h1

/-- The number of finished runs equals the number of bucket changes along
the stream. -/
theorem sgroups_count (tf : Nat) :
    ∀ (L : List Trade) (c : Trade) (cs : List Trade) (done : List (List Trade)),
      ((L.foldl (sgroupStep tf) (c :: cs, done)).2).length
        = done.length + changes tf (get_bar_time tf c.ts) L := by
  intro L
  induction L with
  | nil => intro c cs done; simp [changes]
  | cons t ts ih =>
      intro c cs done
      simp only [List.foldl_cons, sgroupStep]
      split
      · rename_i hb
        rw [ih c (cs ++ [t]) done]
        simp [changes, hb]
      · rename_i hb
        rw [ih t [] (done ++ [c :: cs])]
        simp [changes, hb]
        omega

/-- Strictly increasing timestamps give nondecreasing buckets. -/
theorem buckets_chain (tf : Nat) (L : List Trade)
    (h : List.Chain' (fun a b : Trade => a.ts < b.ts) L) :
    List.Chain' (· ≤ ·) (L.map (fun u => get_bar_time tf u.ts)) := by
  rw [List.chain'_map]
  exact h.imp (fun a b hab =>
    Nat.mul_le_mul_right tf (Nat.div_le_div_right (Nat.le_of_lt hab)))

/-- For a nondecreasing bucket stream, the number of distinct buckets is one
more than the number of bucket changes. -/
theorem dedup_changes (tf : Nat) :
    ∀ (L : List Trade) (b : Nat),
      List.Chain' (· ≤ ·) (b :: L.map (fun u => get_bar_time tf u.ts)) →
      (b :: L.map (fun u => get_bar_time tf u.ts)).dedup.length = 1 + changes tf b L := by
  intro L
  induction L with
  | nil => intro b _; simp [changes]
  | cons t ts ih =>
      intro b hch
      have hbc : b ≤ get_bar_time tf t.ts := (List.chain'_cons.1 hch).1
      have hch' : List.Chain' (· ≤ ·)
          (get_bar_time tf t.ts :: ts.map (fun u => get_bar_time tf u.ts)) :=
        (List.chain'_cons.1 hch).2
      by_cases hb : get_bar_time tf t.ts = b
      · have hmem : b ∈ get_bar_time tf t.ts :: ts.map (fun u => get_bar_time tf u.ts) := by
          simp [hb]
        rw [List.map_cons, List.dedup_cons_of_mem hmem, ih (get_bar_time tf t.ts) hch']
        simp [changes, hb]
      · have hlt : b < get_bar_time tf t.ts := lt_of_le_of_ne hbc (fun h => hb h.symm)
        have hpw := (List.chain'_iff_pairwise.1 hch')
        have hmem : b ∉ get_bar_time tf t.ts :: ts.map (fun u => get_bar_time tf u.ts) := by
          intro hmem
          rcases List.mem_cons.1 hmem with h | h
          · exact hb h.symm
          · have := List.rel_of_pairwise_cons hpw h
            omega
        rw [List.map_cons, List.dedup_cons_of_not_mem hmem, List.length_cons,
          ih (get_bar_time tf t.ts) hch']
        simp [changes, hb]
        omega

/-- C4 amended: feeding trades with strictly increasing timestamps that fall
into N distinct buckets yields exactly N−1 completed-bar emissions — the
final bucket's bar stays open as `current_bar` — and each emitted bar (and
the open one) is the OHLCV summary (`specBar`: open = first price, high =
max, low = min, close = last price, volume = sum of sizes) of its run of
trades; the runs are bucket-coherent and concatenate back to the input, so
each run is exactly the trades of one bucket. -/
theorem bar_aggregator_correct (tf : Nat) (sym : String) (L : List Trade)
    (hinc : List.Chain' (fun a b : Trade => a.ts < b.ts) L) :
    ((initAgg tf).add_trades sym L).2 = ((sgroups tf L).2).map (specBar sym tf) ∧
    ((initAgg tf).add_trades sym L).1
      = stateOf tf sym ((((sgroups tf L).2).map (specBar sym tf)).foldl pushBar [])
          (sgroups tf L).1 ∧
    ((sgroups tf L).2).flatten ++ (sgroups tf L).1 = L ∧
    coherent tf (sgroups tf L).1 ∧
    (∀ g ∈ (sgroups tf L).2, coherent tf g) ∧
    (L ≠ [] →
      ((initAgg tf).add_trades sym L).2.length + 1
        = ((L.map (fun u => get_bar_time tf u.ts)).dedup).length) := by
  have hmain := add_trades_stateOf tf sym L [] []
  have hinit : initAgg tf = stateOf tf sym [] [] := rfl
  refine ⟨?_, ?_, ?_, ?_, ?_, ?_⟩
  · rw [hinit, hmain]
    rfl
  · rw [hinit, hmain]
    rfl
  · have := sgroups_partition tf L [] []
    simpa [sgroups] using this
  · exact (sgroups_coherent tf L [] [] trivial (by simp)).1
  · exact (sgroups_coherent tf L [] [] trivial (by simp)).2
  · intro hne
    rw [hinit, hmain]
    cases L with
    | nil => exact absurd rfl hne
    | cons t ts =>
        have h0 : sgroupStep tf ([], []) t = ([t], []) := rfl
        have hcount : ((List.foldl (sgroupStep tf) ([t], ([] : List (List Trade))) ts).2).length
            = changes tf (get_bar_time tf t.ts) ts := by
          rw [sgroups_count tf ts t [] []]
          simp
        have hded := dedup_changes tf ts (get_bar_time tf t.ts)
          (buckets_chain tf (t :: ts) hinc)
        simp only [List.map_cons] at hded ⊢
        simp only [sgroups, List.foldl_cons, h0]
        rw [hded]
        simp only [List.length_map, hcount]
        omega

/-- C4 counterexample: three strictly increasing trades spanning the two
whole buckets 0 and 60 produce one completed bar, not the two the claim
demands — though that bar's OHLCV for bucket 0 (open 10, high 20, low 10,
close 20, volume 3) is exactly as described. -/
theorem bar_count_counterexample :
    ((initAgg 60).add_trades "SPY" tradesB).2.length = 1 ∧
    ((tradesB.map (fun u => get_bar_time 60 u.ts)).dedup).length = 2 ∧
    ((initAgg 60).add_trades "SPY" tradesB).2
      = [{ symbol := "SPY", timestamp := 0, opn := 10, high := 20, low := 10,
           close := 20, volume := 3 }] := by
  refine ⟨?_, by decide, ?_⟩ <;>
    norm_num [initAgg, tradesB, BarAggregator.add_trades, BarAggregator.add_trade,
      get_bar_time, pushBar]

/-- C4 witness: on the concrete three-trade stream the emission count is
one less than the bucket count. -/
theorem bar_aggregator_correct_witness :
    ((initAgg 60).add_trades "SPY" tradesB).2.length + 1
      = ((tradesB.map (fun u => get_bar_time 60 u.ts)).dedup).length := by
  have h := bar_aggregator_correct 60 "SPY" tradesB
    (by norm_num [tradesB, List.chain'_cons])
  exact h.2.2.2.2.2 (by simp [tradesB])

/-- Running a concatenation of operation lists runs them in sequence. -/
theorem runOps_append (env : ControllerEnv) :
    ∀ (l1 l2 : List ControllerOp) (c : ProductionController),
      runOps env c (l1 ++ l2) = runOps env (runOps env c l1) l2 := by
  intro l1
  induction l1 with
  | nil => intro l2 c; rfl
  | cons op ops ih => intro l2 c; simp only [List.cons_append, runOps]; exact ih l2 _

/-- C6 counterexample: with all data guards passing, the rollout sequence
reaches `LIVE`, and then one further `start_shadow_mode` call moves the
state back to `SHADOW` — a later phase (index 5) to an earlier one (index
2), because no operation guards on the current state. -/
theorem system_state_moves_backward :
    (runOps envB ProductionController.init opsPre).state = SystemState.live ∧
    (runOps envB ProductionController.init (opsPre ++ [ControllerOp.startShadow])).state
      = SystemState.shadow ∧
    phaseIdx SystemState.shadow = some 2 ∧ phaseIdx SystemState.live = some 5 ∧ (2:Nat) < 5 := by
  have h1 : runOps envB ProductionController.init opsPre
      = { state := SystemState.live, audit_log := ["LIVE_TRADING_ENABLED"] } := by
    norm_num [runOps, stepOp, opsPre, envB, ProductionController.init,
      ProductionController.start_shadow_mode, ProductionController.start_canary_mode,
      ProductionController.gradual_ramp_up, ProductionController.enable_live_trading]
  refine ⟨by rw [h1], ?_, rfl, rfl, by norm_num⟩
  rw [runOps_append, h1]
  norm_num [runOps, stepOp, envB, ProductionController.start_shadow_mode]

/-- C6 amended: every guard reads only the external statistics (and, for
live enablement, the confirmation code), never the current `SystemState`;
whenever its guard passes, each mode-entry operation jumps to its target
state from any state whatsoever — so the phase order is not monotonic — and
`paused`/`emergency_stop` are entered unconditionally from any state, the
pause being exited to `LIVE` (whatever the pre-pause state) by
`_auto_resume`. -/
theorem controller_guards_ignore_state (env : ControllerEnv) (c : ProductionController)
    (code date : String) :
    (c.start_shadow_mode env).1.state
      = (if env.preflight_ok then SystemState.shadow else c.state) ∧
    ((c.start_canary_mode env).1.state =
        match env.shadow_stats with
        | none => c.state
        | some d => if d < 24 then c.state else SystemState.canary) ∧
    ((c.gradual_ramp_up env).1.state =
        match env.canary_stats with
        | none => c.state
        | some r => if r < 4/5 then c.state else SystemState.ramping) ∧
    ((c.enable_live_trading env code date).1.state =
        if code = expected_confirmation date ∧ env.preflight_ok = true ∧ env.ramp_stats = true
        then SystemState.live else c.state) ∧
    c.emergency_stop.1.state = SystemState.emergency_stop ∧
    c.pause_trading.1.state = SystemState.paused ∧
    c.auto_resume
      = (if c.state = SystemState.paused then { c with state := SystemState.live } else c) := by
  refine ⟨?_, ?_, ?_, ?_, rfl, rfl, rfl⟩
  · unfold ProductionController.start_shadow_mode
    split_ifs <;> simp_all
  · unfold ProductionController.start_canary_mode
    cases env.shadow_stats
    · simp
    · simp only
      split_ifs <;> simp
  · unfold ProductionController.gradual_ramp_up
    cases env.canary_stats
    · simp
    · simp only
      split_ifs <;> simp
  · unfold ProductionController.enable_live_trading
    split_ifs <;> simp_all

/-- C7 amended: `enable_live_trading` succeeds only when the supplied code
equals the first 8 lower-case hex characters of the SHA-256 of
`"{date}:ENABLE_LIVE_TRADING"`; on a mismatch it returns failure leaving
the controller bit-for-bit unchanged; the expected code is a pure function
of the date (same date, same code) — but two *different* dates can yield
the *same* 8-character code, as the collision theorem shows, since only 32
bits of the digest are kept. -/
theorem enable_live_confirmation (env : ControllerEnv) (c : ProductionController)
    (code date : String) :
    ((c.enable_live_trading env code date).2 = true →
        code = expected_confirmation date) ∧
    (code ≠ expected_confirmation date →
        c.enable_live_trading env code date = (c, false)) ∧
    expected_confirmation date
      = (hexdigest (strBytes (date ++ ":ENABLE_LIVE_TRADING"))).take 8 := by
  refine ⟨?_, ?_, rfl⟩
  · intro h
    by_contra hne
    simp [ProductionController.enable_live_trading, hne] at h
  · intro hne
    simp [ProductionController.enable_live_trading, hne]

/-- C7 witness: a concrete wrong code (the empty string) is rejected with
the controller unchanged. -/
theorem enable_live_confirmation_witness :
    ProductionController.enable_live_trading envB ProductionController.init "" "2026-10-12"
      = (ProductionController.init, false) :=
  (enable_live_confirmation envB ProductionController.init "" "2026-10-12").2.1 (by decide)

/-- C7 counterexample: the dates 2237-07-13 and 2251-05-14 differ but share
the confirmation code `076948d6`, refuting "a different date yields a
different code".  (Both evaluations run the full SHA-256 model, which also
pins down the derivation bit-exactly.) -/
theorem confirmation_code_collision :
    ("2237-07-13" : String) ≠ "2251-05-14" ∧
    expected_confirmation "2237-07-13" = "076948d6" ∧
    expected_confirmation "2251-05-14" = "076948d6" :=
  ⟨by decide, by decide, by decide⟩

end MSC
